import Mathlib

/-!
Shallow embedding of the chunk/manifest protocol of johnny-blog-dg:
the chunker (`FileChunker.chunkFile`, `processSmallFile`, `compressAndEncrypt`,
`compressZstd`, `encryptAge` in the chunking script) and the reassembler
(`FileDecryptor.decryptFile`, `decryptSingleFile`, `decryptAndDecompress`,
`decryptAge`, `decompressZstd`, `calculateHash`, `clearCache` in
src/scripts/decrypt-files.ts), with the manifest data model from
src/types/index.ts.

Bytes are modelled as lists of naturals.  The external `zstd` and `age`
binaries the scripts shell out to are modelled by an abstract `Codec`
record of pure transforms; the SHA-256 digest is modelled by the `hash`
field of the codec.  The filesystem (artifact store) is an association list from
path strings to byte lists, and the in-memory `Map` cache of the
decryptor is the same.  Counters record how many times each transform ran, so that
"no redundant work" statements are expressible.
-/

/-- Byte sequences (Node `Buffer`s) modelled as lists of naturals. -/
abbrev Bytes := List Nat

/-- Model of `ChunkInfo` from src/types/index.ts: `index`, `path`, `size` (the byte
length of the stored artifact, as reported by `fs.stat` on the written
chunk file), `hash` (the SHA-256 digest of the plaintext slice, modelled
as a natural). -/
structure ChunkInfo where
  index : Nat
  path : String
  size : Nat
  hash : Nat
deriving Repr, DecidableEq

/-- Model of `ChunkManifest` from src/types/index.ts.  The optional JS fields
`isChunked?`, `path?`, `size?`, `hash?` become `Option`s; a chunked
manifest produced by `chunkFile` leaves them absent (`none`). -/
structure ChunkManifest where
  originalFile : String
  originalSize : Nat
  numChunks : Nat
  chunkSize : Nat
  chunks : List ChunkInfo
  createdAt : String
  isChunked : Option Bool
  path : Option String
  size : Option Nat
  hash : Option Nat
deriving Repr, DecidableEq

/-- The error values the scripts can throw.  `EncryptionError`,
`DecryptionError` and `CompressionError` are the classes of
src/types/index.ts, carrying their message strings.  The three
`ChunkError` throw sites build their messages by interpolating numbers
into fixed templates, modelled here as structured payloads:
`chunkTooLarge i sz` is `ChunkError "Chunk i is ...MB, exceeds GitHub
limit!"`, `chunkHashMismatch i exp got` is `ChunkError "Chunk i hash
mismatch! Expected exp, got got"`, and `sizeMismatch exp got` is
`ChunkError "File size mismatch! Expected exp, got got"`.  `typeError`
models the TypeError Node raises when `Buffer.concat` meets a hole, and
`fsError` a thrown filesystem error. -/
inductive DGError where
  | encryptionError : String → DGError
  | decryptionError : String → DGError
  | compressionError : String → DGError
  | chunkTooLarge : Nat → Nat → DGError
  | chunkHashMismatch : Nat → Nat → Nat → DGError
  | sizeMismatch : Nat → Nat → DGError
  | typeError : String → DGError
  | fsError : String → DGError
deriving Repr, DecidableEq

/-- The external `zstd` and `age` binaries, and the SHA-256 digest, as
abstract pure transforms.  `decrypt`/`decompress` return `none` where the
binary would exit nonzero (wrong key, tampered ciphertext, malformed
compressed data). -/
structure Codec where
  compress : Bytes → Bytes
  encrypt : Bytes → Bytes
  decrypt : Bytes → Option Bytes
  decompress : Bytes → Option Bytes
  hash : Bytes → Nat

/-- The process environment: `AGE_PUBLIC_KEY` and `AGE_PRIVATE_KEY`. -/
structure Env where
  agePublicKey : Option String
  agePrivateKey : Option String
deriving Repr, DecidableEq

/-- Association-list lookup by path string, modelling `Map.get`/`Map.has`
on the cache of the decryptor and file reads from the artifact store. -/
def lookupStr (p : String) : List (String × Bytes) → Option Bytes
  | [] => none
  | (q, v) :: rest => if q = p then some v else lookupStr p rest

/-- State of the write path: transform-invocation counters and the
artifact store (the files written so far, newest first). -/
structure WriteState where
  compressCount : Nat
  encryptCount : Nat
  store : List (String × Bytes)
deriving Repr, DecidableEq

/-- Model of `FileChunker.compressZstd`: pipes the buffer through `zstd -LEVEL`. -/
def compressZstd (c : Codec) (data : Bytes) (st : WriteState) : Bytes × WriteState :=
  (c.compress data, { st with compressCount := st.compressCount + 1 })

/-- Model of `FileChunker.encryptAge`: throws `EncryptionError` if `AGE_PUBLIC_KEY`
is unset, otherwise pipes the buffer through `age -e -r KEY`. -/
def encryptAge (c : Codec) (env : Env) (data : Bytes) (st : WriteState) :
    Except DGError Bytes × WriteState :=
  match env.agePublicKey with
  | none => (.error (.encryptionError "AGE_PUBLIC_KEY environment variable required"), st)
  | some _ => (.ok (c.encrypt data), { st with encryptCount := st.encryptCount + 1 })

/-- Model of `FileChunker.compressAndEncrypt`: compress, then encrypt, then write
the result to `outputPath`.  Note the compression step runs before
`encryptAge` performs its key check. -/
def compressAndEncrypt (c : Codec) (env : Env) (data : Bytes) (outputPath : String)
    (st : WriteState) : Except DGError Unit × WriteState :=
  match compressZstd c data st with
  | (compressed, st1) =>
    match encryptAge c env compressed st1 with
    | (.error e, st2) => (.error e, st2)
    | (.ok encrypted, st2) =>
      (.ok (), { st2 with store := (outputPath, encrypted) :: st2.store })

/-- Model of `fs.stat(path).size` over the modelled store: the byte length of the
most recently written file at `path`. -/
def fsStat (st : WriteState) (p : String) : Option Nat :=
  (lookupStr p st.store).map List.length

/-- Model of `padStart` as used in the chunk-file naming: render `i`
padded to at least 3 digits with leading zeros. -/
def pad3 (i : Nat) : String :=
  if i < 10 then "00" ++ toString i
  else if i < 100 then "0" ++ toString i
  else toString i

/-- The chunk artifact path `${baseName}.chunk.${pad3 i}.age.zst`. -/
def chunkPathOf (baseName : String) (i : Nat) : String :=
  baseName ++ ".chunk." ++ pad3 i ++ ".age.zst"

/-- The buffer the chunk loop reads for chunk `i`:
`Buffer.alloc(Math.min(CHUNK_SIZE, fileSize - i*CHUNK_SIZE))` filled by
a read at offset `i*CHUNK_SIZE`. -/
def chunkBuffer (data : Bytes) (T i : Nat) : Bytes :=
  (data.drop (i * T)).take (min T (data.length - i * T))

/-- The `for (let i = 0; i < numChunks; i++)` body of
`FileChunker.chunkFile`, recursing over the remaining chunk indices:
read the slice, compress+encrypt it to its chunk path, `fs.stat` the
written artifact, fail with `ChunkError` if it exceeds the GitHub limit
`C`, otherwise push its `ChunkInfo` (artifact size, plaintext hash). -/
def chunkLoop (c : Codec) (env : Env) (T C : Nat) (data : Bytes) (baseName : String) :
    List Nat → List ChunkInfo → WriteState →
    Except DGError (List ChunkInfo) × WriteState
  | [], acc, st => (.ok acc, st)
  | i :: rest, acc, st =>
    match compressAndEncrypt c env (chunkBuffer data T i) (chunkPathOf baseName i) st with
    | (.error e, st1) => (.error e, st1)
    | (.ok _, st1) =>
      match fsStat st1 (chunkPathOf baseName i) with
      | none => (.error (.fsError "ENOENT"), st1)
      | some sz =>
        if C < sz then (.error (.chunkTooLarge i sz), st1)
        else
          chunkLoop c env T C data baseName rest
            (acc ++ [{ index := i, path := chunkPathOf baseName i, size := sz,
                       hash := c.hash (chunkBuffer data T i) }]) st1

/-- Model of `FileChunker.processSmallFile`: compress+encrypt the whole file to a
single artifact and return the unchunked manifest (`isChunked: false`,
direct `path`/`size`/`hash` fields, empty chunk list).  No size check is
performed on the produced artifact. -/
def processSmallFile (c : Codec) (env : Env) (T : Nat) (data : Bytes) (baseName : String)
    (st : WriteState) : Except DGError ChunkManifest × WriteState :=
  match compressAndEncrypt c env data (baseName ++ ".age.zst") st with
  | (.error e, st1) => (.error e, st1)
  | (.ok _, st1) =>
    match fsStat st1 (baseName ++ ".age.zst") with
    | none => (.error (.fsError "ENOENT"), st1)
    | some sz =>
      (.ok { originalFile := baseName, originalSize := data.length, numChunks := 1,
             chunkSize := T, chunks := [], createdAt := "",
             isChunked := some false, path := some (baseName ++ ".age.zst"),
             size := some sz, hash := some (c.hash data) }, st1)

/-- Model of `FileChunker.chunkFile` with ceiling `C` (`MAX_GITHUB_SIZE`) and
target `T` (`CHUNK_SIZE`): files of size ≤ `C` go through
`processSmallFile`; larger files are split into
`Math.ceil(fileSize / CHUNK_SIZE)` chunks by `chunkLoop` and the chunked
manifest is assembled.  Note the chunked manifest object literal in the
source sets `originalFile`, `originalSize`, `numChunks`, `chunkSize`,
`chunks`, `createdAt` and nothing else: `isChunked`, `path`, `size`,
`hash` stay absent (`none`).  The manifest JSON write is not modelled;
the returned value is the manifest. -/
def chunkFile (c : Codec) (env : Env) (T C : Nat) (data : Bytes) (baseName : String)
    (st : WriteState) : Except DGError ChunkManifest × WriteState :=
  if data.length ≤ C then processSmallFile c env T data baseName st
  else
    match chunkLoop c env T C data baseName (List.range ((data.length + T - 1) / T)) [] st with
    | (.error e, st1) => (.error e, st1)
    | (.ok chunks, st1) =>
      (.ok { originalFile := baseName, originalSize := data.length,
             numChunks := (data.length + T - 1) / T, chunkSize := T,
             chunks := chunks, createdAt := "",
             isChunked := none, path := none, size := none, hash := none }, st1)

/-- State of the read path: the `cache` map of the decryptor plus
transform-invocation counters. -/
structure DecState where
  cache : List (String × Bytes)
  decryptCount : Nat
  decompressCount : Nat
deriving Repr, DecidableEq

/-- Model of `FileDecryptor.decryptAge`: throws `DecryptionError` if
`AGE_PRIVATE_KEY` is unset; otherwise runs `age -d` on the file at
`inputPath`, which fails (rejected promise with `DecryptionError`) when
the file is missing or the ciphertext does not decrypt. -/
def decryptAge (c : Codec) (env : Env) (store : List (String × Bytes)) (inputPath : String)
    (st : DecState) : Except DGError Bytes × DecState :=
  match env.agePrivateKey with
  | none => (.error (.decryptionError "AGE_PRIVATE_KEY environment variable required"), st)
  | some _ =>
    match lookupStr inputPath store with
    | none => (.error (.decryptionError "Age decryption failed"), st)
    | some ct =>
      match c.decrypt ct with
      | none => (.error (.decryptionError "Age decryption failed"), st)
      | some pt => (.ok pt, { st with decryptCount := st.decryptCount + 1 })

/-- Model of `FileDecryptor.decompressZstd`: runs `zstd -d`, failing with
`CompressionError` on malformed input. -/
def decompressZstd (c : Codec) (data : Bytes) (st : DecState) :
    Except DGError Bytes × DecState :=
  match c.decompress data with
  | none => (.error (.compressionError "Zstd decompression failed"), st)
  | some d => (.ok d, { st with decompressCount := st.decompressCount + 1 })

/-- Model of `FileDecryptor.decryptAndDecompress`: return the cached plaintext if
`inputPath` is in the cache; otherwise decrypt, decompress, insert the
result into the cache, and return it.  No hash verification happens
here. -/
def decryptAndDecompress (c : Codec) (env : Env) (store : List (String × Bytes))
    (inputPath : String) (st : DecState) : Except DGError Bytes × DecState :=
  match lookupStr inputPath st.cache with
  | some b => (.ok b, st)
  | none =>
    match decryptAge c env store inputPath st with
    | (.error e, st1) => (.error e, st1)
    | (.ok dec, st1) =>
      match decompressZstd c dec st1 with
      | (.error e, st2) => (.error e, st2)
      | (.ok dd, st2) => (.ok dd, { st2 with cache := (inputPath, dd) :: st2.cache })

/-- Model of `FileDecryptor.decryptSingleFile`: decode the single artifact and
return it (the output-file write is not modelled).  No hash or size
verification is performed on this path. -/
def decryptSingleFile (c : Codec) (env : Env) (store : List (String × Bytes))
    (inputPath : String) (st : DecState) : Except DGError Bytes × DecState :=
  decryptAndDecompress c env store inputPath st

/-- Model of `chunks[chunkInfo.index] = chunkData` on a JS array: extend with
holes to index `i` if needed, then set position `i`. -/
def setAt (arr : List (Option Bytes)) (i : Nat) (v : Bytes) : List (Option Bytes) :=
  if i < arr.length then arr.set i (some v)
  else arr ++ List.replicate (i - arr.length) none ++ [some v]

/-- Model of `Buffer.concat` over a possibly sparse JS array: a hole (an entry
that is not a Buffer) raises a TypeError. -/
def bufferConcat : List (Option Bytes) → Except DGError Bytes
  | [] => .ok []
  | none :: _ => .error (.typeError "list argument must be an instance of Buffer")
  | some b :: rest => (bufferConcat rest).map (b ++ ·)

/-- The `for (const chunkInfo of manifest.chunks)` loop of
`FileDecryptor.decryptFile`: decode each chunk via
`decryptAndDecompress`, recompute the plaintext hash and compare with the
recorded one — mismatch throws the `ChunkError` naming the index and both
digests — then store the bytes at `chunks[chunkInfo.index]`. -/
def processChunks (c : Codec) (env : Env) (store : List (String × Bytes)) :
    List ChunkInfo → List (Option Bytes) → DecState →
    Except DGError (List (Option Bytes)) × DecState
  | [], arr, st => (.ok arr, st)
  | ci :: rest, arr, st =>
    match decryptAndDecompress c env store ci.path st with
    | (.error e, st1) => (.error e, st1)
    | (.ok d, st1) =>
      if c.hash d = ci.hash then
        processChunks c env store rest (setAt arr ci.index d) st1
      else
        (.error (.chunkHashMismatch ci.index ci.hash (c.hash d)), st1)

/-- Model of `FileDecryptor.decryptFile`: `if (!manifest.isChunked)` — which is
taken whenever `isChunked` is `false` or absent — route to
`decryptSingleFile` on `manifest.path!` (the absent path interpolates as
the literal string "undefined" in the shell command); otherwise run the
chunk loop, `Buffer.concat` the array, compare the total length with
`originalSize` (mismatch throws `ChunkError`), and return the assembled
buffer. -/
def decryptFile (c : Codec) (env : Env) (store : List (String × Bytes))
    (manifest : ChunkManifest) (st : DecState) : Except DGError Bytes × DecState :=
  if manifest.isChunked = some true then
    match processChunks c env store manifest.chunks [] st with
    | (.error e, st1) => (.error e, st1)
    | (.ok arr, st1) =>
      match bufferConcat arr with
      | .error e => (.error e, st1)
      | .ok fullData =>
        if fullData.length = manifest.originalSize then (.ok fullData, st1)
        else (.error (.sizeMismatch manifest.originalSize fullData.length), st1)
  else
    decryptSingleFile c env store (manifest.path.getD "undefined") st

/-- Model of `FileDecryptor.clearCache`: `this.cache.clear()`. -/
def clearCache (st : DecState) : DecState :=
  { st with cache := [] }

/-- A concrete codec for witnesses: identity compression and encryption,
digest = sum of the bytes. -/
def idCodec : Codec :=
  { compress := id, encrypt := id, decrypt := some, decompress := some,
    hash := fun b => b.sum }

/-- A concrete codec whose encryption adds one byte of overhead, like
the fixed per-file header of age. -/
def padCodec : Codec :=
  { compress := id, encrypt := fun b => b ++ [0],
    decrypt := fun b => some b.dropLast, decompress := some,
    hash := fun b => b.sum }

/-- An environment with both age keys present. -/
def keysEnv : Env := { agePublicKey := some "age1pub", agePrivateKey := some "age1sec" }

/-- An environment with neither age key present. -/
def noKeysEnv : Env := { agePublicKey := none, agePrivateKey := none }

/-- The initial write-path state: no transforms run, empty store. -/
def wst0 : WriteState := { compressCount := 0, encryptCount := 0, store := [] }

/-- The initial read-path state: empty cache, no transforms run. -/
def dst0 : DecState := { cache := [], decryptCount := 0, decompressCount := 0 }

/-- The manifest `chunkFile` produces for the 5-byte file `[1,2,3,4,5]`
with target 2 and ceiling 4 under `idCodec`: three chunks, and the
optional fields — `isChunked` included — left absent. -/
def demoManifest : ChunkManifest :=
  { originalFile := "f", originalSize := 5, numChunks := 3, chunkSize := 2,
    chunks := [{ index := 0, path := "f.chunk.000.age.zst", size := 2, hash := 3 },
               { index := 1, path := "f.chunk.001.age.zst", size := 2, hash := 7 },
               { index := 2, path := "f.chunk.002.age.zst", size := 1, hash := 5 }],
    createdAt := "", isChunked := none, path := none, size := none, hash := none }

/-- The write-path state after the `demoManifest` run: three artifacts
written. -/
def demoWState : WriteState :=
  { compressCount := 3, encryptCount := 3,
    store := [("f.chunk.002.age.zst", [5]), ("f.chunk.001.age.zst", [3, 4]),
              ("f.chunk.000.age.zst", [1, 2])] }

/-- The manifest `chunkFile` produces for the same 5-byte file under
`padCodec`, whose encryption adds one byte per artifact: the recorded
`size` fields are the ciphertext sizes 3, 3, 2. -/
def padManifest : ChunkManifest :=
  { originalFile := "f", originalSize := 5, numChunks := 3, chunkSize := 2,
    chunks := [{ index := 0, path := "f.chunk.000.age.zst", size := 3, hash := 3 },
               { index := 1, path := "f.chunk.001.age.zst", size := 3, hash := 7 },
               { index := 2, path := "f.chunk.002.age.zst", size := 2, hash := 5 }],
    createdAt := "", isChunked := none, path := none, size := none, hash := none }

/-- The write-path state after the `padManifest` run. -/
def padWState : WriteState :=
  { compressCount := 3, encryptCount := 3,
    store := [("f.chunk.002.age.zst", [5, 0]), ("f.chunk.001.age.zst", [3, 4, 0]),
              ("f.chunk.000.age.zst", [1, 2, 0])] }

/-- An unchunked manifest whose recorded digest (999) and size (999) are
both wrong for the stored artifact. -/
def wrongHashSingleManifest : ChunkManifest :=
  { originalFile := "f", originalSize := 999, numChunks := 1, chunkSize := 2,
    chunks := [], createdAt := "", isChunked := some false, path := some "a",
    size := some 5, hash := some 999 }

/-- An ordinary unchunked manifest pointing at artifact `"s"`. -/
def plainSingleManifest : ChunkManifest :=
  { originalFile := "g", originalSize := 1, numChunks := 1, chunkSize := 2,
    chunks := [], createdAt := "", isChunked := some false, path := some "s",
    size := some 1, hash := some 42 }

/-- A chunked manifest with a duplicated chunk index 0 (both records
point at artifact `"p"` whose plaintext digest matches). -/
def dupIndexManifest : ChunkManifest :=
  { originalFile := "f", originalSize := 1, numChunks := 2, chunkSize := 2,
    chunks := [{ index := 0, path := "p", size := 1, hash := 5 },
               { index := 0, path := "p", size := 1, hash := 5 }],
    createdAt := "", isChunked := some true, path := none, size := none, hash := none }

/-- A chunked manifest with duplicated indices whose first artifact is
missing from the store. -/
def dupIndexMissingManifest : ChunkManifest :=
  { originalFile := "f", originalSize := 2, numChunks := 2, chunkSize := 2,
    chunks := [{ index := 3, path := "x", size := 1, hash := 0 },
               { index := 3, path := "x", size := 1, hash := 0 }],
    createdAt := "", isChunked := some true, path := none, size := none, hash := none }

/-- A one-chunk manifest whose recorded digest 999 does not match the
plaintext stored at `"h"`. -/
def badHashManifest : ChunkManifest :=
  { originalFile := "f", originalSize := 1, numChunks := 1, chunkSize := 2,
    chunks := [{ index := 0, path := "h", size := 1, hash := 999 }],
    createdAt := "", isChunked := some true, path := none, size := none, hash := none }

/-- A one-chunk manifest whose recorded digest 777 does not match the
plaintext stored at `"q"`. -/
def poisonManifest : ChunkManifest :=
  { originalFile := "f", originalSize := 1, numChunks := 1, chunkSize := 2,
    chunks := [{ index := 0, path := "q", size := 1, hash := 777 }],
    createdAt := "", isChunked := some true, path := none, size := none, hash := none }

/-- Lookup finds an entry just inserted at the head of the list. -/
theorem lookupStr_cons_self (p : String) (v : Bytes) (l : List (String × Bytes)) :
    lookupStr p ((p, v) :: l) = some v := by
  simp [lookupStr]

/-- A cache hit returns the memoized bytes and leaves the state untouched. -/
theorem decryptAndDecompress_hit (c : Codec) (env : Env) (store : List (String × Bytes))
    (p : String) (st : DecState) (b : Bytes)
    (h : lookupStr p st.cache = some b) :
    decryptAndDecompress c env store p st = (.ok b, st) := by
  simp [decryptAndDecompress, h]

/-- A cache miss with both transforms succeeding decrypts, decompresses,
counts the work, and memoizes the plaintext — before any verification. -/
theorem decryptAndDecompress_fresh (c : Codec) (env : Env) (store : List (String × Bytes))
    (p k : String) (st : DecState) (ct dec d : Bytes)
    (hfresh : lookupStr p st.cache = none)
    (hk : env.agePrivateKey = some k)
    (hst : lookupStr p store = some ct)
    (hdec : c.decrypt ct = some dec)
    (hdd : c.decompress dec = some d) :
    decryptAndDecompress c env store p st =
      (.ok d, { cache := (p, d) :: st.cache, decryptCount := st.decryptCount + 1,
                decompressCount := st.decompressCount + 1 }) := by
  simp [decryptAndDecompress, decryptAge, decompressZstd, hfresh, hk, hst, hdec, hdd]

/-- Inversion: a successful fresh decode can only arise from the private
key being present and both transforms succeeding, and it leaves the
plaintext cached with both counters incremented. -/
theorem decryptAndDecompress_fresh_inv (c : Codec) (env : Env)
    (store : List (String × Bytes)) (p : String) (st : DecState) (b : Bytes)
    (st1 : DecState)
    (hfresh : lookupStr p st.cache = none)
    (h : decryptAndDecompress c env store p st = (.ok b, st1)) :
    ∃ k ct dec, env.agePrivateKey = some k ∧ lookupStr p store = some ct ∧
      c.decrypt ct = some dec ∧ c.decompress dec = some b ∧
      st1 = { cache := (p, b) :: st.cache, decryptCount := st.decryptCount + 1,
              decompressCount := st.decompressCount + 1 } := by
  rcases hk : env.agePrivateKey with _ | k
  · simp [decryptAndDecompress, decryptAge, hfresh, hk] at h
  · rcases hst : lookupStr p store with _ | ct
    · simp [decryptAndDecompress, decryptAge, hfresh, hk, hst] at h
    · rcases hdec : c.decrypt ct with _ | dec
      · simp [decryptAndDecompress, decryptAge, hfresh, hk, hst, hdec] at h
      · rcases hdd : c.decompress dec with _ | d
        · simp [decryptAndDecompress, decryptAge, decompressZstd,
                hfresh, hk, hst, hdec, hdd] at h
        · simp [decryptAndDecompress, decryptAge, decompressZstd,
                hfresh, hk, hst, hdec, hdd] at h
          exact ⟨k, ct, dec, rfl, rfl, hdec, by rw [← h.1]; exact hdd,
                 by rw [← h.2, h.1]⟩

/-- In the reassembly loop, once a prefix of chunk records has been
processed successfully, a decoded chunk whose recomputed digest differs
from the recorded one aborts the whole loop with the `ChunkError` naming
the index and both digest values. -/
theorem processChunks_mismatch (c : Codec) (env : Env) (store : List (String × Bytes))
    (ci : ChunkInfo) (post : List ChunkInfo) (d : Bytes) (st2 : DecState)
    (hneq : c.hash d ≠ ci.hash) :
    ∀ (pre : List ChunkInfo) (arr arr1 : List (Option Bytes)) (st st1 : DecState),
      processChunks c env store pre arr st = (.ok arr1, st1) →
      decryptAndDecompress c env store ci.path st1 = (.ok d, st2) →
      processChunks c env store (pre ++ ci :: post) arr st =
        (.error (.chunkHashMismatch ci.index ci.hash (c.hash d)), st2) := by
  intro pre
  induction pre with
  | nil =>
    intro arr arr1 st st1 hpre hdec
    simp only [processChunks] at hpre
    obtain ⟨h1, h2⟩ := Prod.mk.injEq .. ▸ hpre
    obtain rfl := Except.ok.inj h1
    subst h2
    simp [processChunks, hdec, hneq]
  | cons c0 pre ih =>
    intro arr arr1 st st1 hpre hdec
    rcases h0 : decryptAndDecompress c env store c0.path st with ⟨r0, st0⟩
    simp only [processChunks, List.cons_append, h0] at hpre ⊢
    cases r0 with
    | error e => simp at hpre
    | ok d0 =>
      by_cases hh : c.hash d0 = c0.hash
      · simp only [hh, if_pos rfl] at hpre ⊢
        exact ih _ _ _ _ hpre hdec
      · simp [hh] at hpre

/-- C5: for every chunked manifest, if the digest recomputed over a
decoded chunk differs from the recorded `plaintext_hash`, `decryptFile`
fails with the fatal `ChunkError` carrying the offending chunk index and
both digest values (recorded and recomputed); no buffer is returned. -/
theorem chunk_hash_mismatch_fatal (c : Codec) (env : Env) (store : List (String × Bytes))
    (m : ChunkManifest) (st st1 st2 : DecState) (pre post : List ChunkInfo)
    (ci : ChunkInfo) (arr1 : List (Option Bytes)) (d : Bytes)
    (hch : m.isChunked = some true)
    (hsplit : m.chunks = pre ++ ci :: post)
    (hpre : processChunks c env store pre [] st = (.ok arr1, st1))
    (hdec : decryptAndDecompress c env store ci.path st1 = (.ok d, st2))
    (hneq : c.hash d ≠ ci.hash) :
    decryptFile c env store m st =
      (.error (.chunkHashMismatch ci.index ci.hash (c.hash d)), st2) := by
  have h := processChunks_mismatch c env store ci post d st2 hneq pre [] arr1 st st1 hpre hdec
  simp [decryptFile, hch, hsplit, h]

/-- Witness for C5 at a concrete one-chunk manifest: recorded digest 999,
recomputed digest 1. -/
theorem chunk_hash_mismatch_fatal_witness :
    decryptFile idCodec keysEnv [("h", [1])] badHashManifest dst0 =
      (.error (.chunkHashMismatch 0 999 1),
       { cache := [("h", [1])], decryptCount := 1, decompressCount := 1 }) :=
  chunk_hash_mismatch_fatal idCodec keysEnv [("h", [1])] badHashManifest dst0 dst0
    { cache := [("h", [1])], decryptCount := 1, decompressCount := 1 } [] []
    { index := 0, path := "h", size := 1, hash := 999 } [] [1]
    rfl rfl rfl rfl (by decide)

/-- C10: `decryptAndDecompress` inserts the decoded plaintext into the
cache before `decryptFile` verifies its digest, so after a hash-mismatch
failure the cache still holds the mismatching plaintext keyed by the
chunk location, and any later decode of that location — whatever the
store then contains — returns the cached bytes with no decrypt,
decompress, or hash verification work. -/
theorem failed_verification_poisons_cache (c : Codec) (env : Env)
    (store : List (String × Bytes)) (m : ChunkManifest) (st : DecState)
    (ci : ChunkInfo) (rest : List ChunkInfo) (k : String) (ct dec d : Bytes)
    (hch : m.isChunked = some true) (hchunks : m.chunks = ci :: rest)
    (hfresh : lookupStr ci.path st.cache = none)
    (hk : env.agePrivateKey = some k)
    (hst : lookupStr ci.path store = some ct)
    (hdec : c.decrypt ct = some dec) (hdd : c.decompress dec = some d)
    (hneq : c.hash d ≠ ci.hash) :
    decryptFile c env store m st =
      (.error (.chunkHashMismatch ci.index ci.hash (c.hash d)),
       { cache := (ci.path, d) :: st.cache, decryptCount := st.decryptCount + 1,
         decompressCount := st.decompressCount + 1 }) ∧
    ∀ store2, decryptAndDecompress c env store2 ci.path
        { cache := (ci.path, d) :: st.cache, decryptCount := st.decryptCount + 1,
          decompressCount := st.decompressCount + 1 } =
      (.ok d, { cache := (ci.path, d) :: st.cache, decryptCount := st.decryptCount + 1,
                decompressCount := st.decompressCount + 1 }) := by
  have hfd := decryptAndDecompress_fresh c env store ci.path k st ct dec d hfresh hk hst hdec hdd
  constructor
  · have h := processChunks_mismatch c env store ci rest d _ hneq [] [] [] st st rfl hfd
    rw [List.nil_append] at h
    simp [decryptFile, hch, hchunks, h]
  · intro store2
    exact decryptAndDecompress_hit _ _ _ _ _ _ (lookupStr_cons_self ..)

/-- Witness for C10 at a concrete one-chunk manifest: after the failure
the cache holds the plaintext `[2]` for location `"q"`, and decoding
`"q"` against an empty store still returns `[2]` unchanged. -/
theorem failed_verification_poisons_cache_witness :
    decryptFile idCodec keysEnv [("q", [2])] poisonManifest dst0 =
      (.error (.chunkHashMismatch 0 777 2),
       { cache := [("q", [2])], decryptCount := 1, decompressCount := 1 }) ∧
    decryptAndDecompress idCodec keysEnv [] "q"
        { cache := [("q", [2])], decryptCount := 1, decompressCount := 1 } =
      (.ok [2], { cache := [("q", [2])], decryptCount := 1, decompressCount := 1 }) := by
  have h := failed_verification_poisons_cache idCodec keysEnv [("q", [2])] poisonManifest
    dst0 { index := 0, path := "q", size := 1, hash := 777 } [] "age1sec" [2] [2] [2]
    rfl rfl rfl rfl rfl rfl rfl (by decide)
  exact ⟨h.1, h.2 []⟩

/-- C2 (amended): with `is_chunked` false the reassembler decodes the
single artifact and returns it directly, with no digest or length
verification: whatever the recorded `hash` and `originalSize` say, the
result is exactly the decoded bytes. -/
theorem single_file_returns_decode_unverified (c : Codec) (env : Env)
    (store : List (String × Bytes)) (m : ChunkManifest) (st st1 : DecState) (b : Bytes)
    (hch : m.isChunked = some false)
    (hdec : decryptAndDecompress c env store (m.path.getD "undefined") st = (.ok b, st1)) :
    decryptFile c env store m st = (.ok b, st1) := by
  simp [decryptFile, decryptSingleFile, hch, hdec]

/-- Witness for the amended C2: the unchunked manifest for artifact `"s"`
decodes to `[9]` and `decryptFile` returns it. -/
theorem single_file_returns_decode_unverified_witness :
    decryptFile idCodec keysEnv [("s", [9])] plainSingleManifest dst0 =
      (.ok [9], { cache := [("s", [9])], decryptCount := 1, decompressCount := 1 }) :=
  single_file_returns_decode_unverified idCodec keysEnv [("s", [9])] plainSingleManifest
    dst0 { cache := [("s", [9])], decryptCount := 1, decompressCount := 1 } [9] rfl rfl

/-- C2 counterexample: the decoded single artifact `[7]` is returned as a
success even though its digest (7) differs from the recorded digest (999)
and its length (1) differs from the recorded `originalSize` (999) — the
claimed verification does not happen. -/
theorem single_file_skips_verification_cex :
    decryptFile idCodec keysEnv [("a", [7])] wrongHashSingleManifest dst0 =
      (.ok [7], { cache := [("a", [7])], decryptCount := 1, decompressCount := 1 }) ∧
    idCodec.hash [7] ≠ wrongHashSingleManifest.hash.getD 0 ∧
    ([7] : Bytes).length ≠ wrongHashSingleManifest.originalSize :=
  ⟨rfl, by decide, by decide⟩

/-- C3 (amended): `decryptFile` performs no structural validation of a
loaded manifest: it proceeds straight to decoding chunk artifacts, so
even a manifest with duplicated or skipped indices and a wrong size sum
is never rejected with a structural error — what surfaces is the fate of
the decode itself (here: a missing first artifact gives the
`DecryptionError` of the decode attempt). -/
theorem no_structural_validation_before_decode (c : Codec) (env : Env)
    (store : List (String × Bytes)) (m : ChunkManifest) (st : DecState)
    (ci : ChunkInfo) (rest : List ChunkInfo) (k : String)
    (hch : m.isChunked = some true) (hchunks : m.chunks = ci :: rest)
    (hfresh : lookupStr ci.path st.cache = none)
    (hk : env.agePrivateKey = some k)
    (hmissing : lookupStr ci.path store = none) :
    decryptFile c env store m st =
      (.error (.decryptionError "Age decryption failed"), st) := by
  simp [decryptFile, hch, hchunks, processChunks, decryptAndDecompress, decryptAge,
        hfresh, hk, hmissing]

/-- Witness for the amended C3 at a manifest with duplicated index 3 and
a missing artifact. -/
theorem no_structural_validation_before_decode_witness :
    decryptFile idCodec keysEnv [] dupIndexMissingManifest dst0 =
      (.error (.decryptionError "Age decryption failed"), dst0) :=
  no_structural_validation_before_decode idCodec keysEnv [] dupIndexMissingManifest dst0
    { index := 3, path := "x", size := 1, hash := 0 }
    [{ index := 3, path := "x", size := 1, hash := 0 }] "age1sec"
    rfl rfl rfl rfl rfl

/-- C3 counterexample: a manifest with a duplicated chunk index is not
rejected before decoding — decode work runs (`decryptCount` reaches 1)
and this duplicated-index manifest is even reconstructed successfully. -/
theorem duplicate_index_manifest_accepted_cex :
    decryptFile idCodec keysEnv [("p", [5])] dupIndexManifest dst0 =
      (.ok [5], { cache := [("p", [5])], decryptCount := 1, decompressCount := 1 }) ∧
    dupIndexManifest.chunks.map ChunkInfo.index = [0, 0] :=
  ⟨rfl, rfl⟩

/-- C8: decoding the same artifact location twice returns byte-identical
plaintext both times; the second call performs no decrypt or decompress
work (it returns the memoized buffer and the state is unchanged);
`clearCache` empties the memo, and the next call recomputes — both
transforms run again — returning the same bytes. -/
theorem decode_cache_idempotent (c : Codec) (env : Env) (store : List (String × Bytes))
    (p : String) (st st1 : DecState) (b : Bytes)
    (hfresh : lookupStr p st.cache = none)
    (h1 : decryptAndDecompress c env store p st = (.ok b, st1)) :
    decryptAndDecompress c env store p st1 = (.ok b, st1) ∧
    st1.decryptCount = st.decryptCount + 1 ∧
    st1.decompressCount = st.decompressCount + 1 ∧
    (clearCache st1).cache = [] ∧
    decryptAndDecompress c env store p (clearCache st1) =
      (.ok b, { cache := [(p, b)], decryptCount := st1.decryptCount + 1,
                decompressCount := st1.decompressCount + 1 }) := by
  obtain ⟨k, ct, dec, hk, hst, hdec, hdd, hst1⟩ :=
    decryptAndDecompress_fresh_inv c env store p st b st1 hfresh h1
  subst hst1
  refine ⟨decryptAndDecompress_hit _ _ _ _ _ _ (lookupStr_cons_self ..), rfl, rfl, rfl, ?_⟩
  exact decryptAndDecompress_fresh c env store p k _ ct dec b rfl hk hst hdec hdd

/-- Witness for C8 at artifact `"w"`: the second call is a pure cache
hit, and after `clearCache` the decode recomputes (counters reach 2). -/
theorem decode_cache_idempotent_witness :
    decryptAndDecompress idCodec keysEnv [("w", [2])] "w"
        { cache := [("w", [2])], decryptCount := 1, decompressCount := 1 } =
      (.ok [2], { cache := [("w", [2])], decryptCount := 1, decompressCount := 1 }) ∧
    (1 : Nat) = 0 + 1 ∧ (1 : Nat) = 0 + 1 ∧
    (clearCache { cache := [("w", [2])], decryptCount := 1, decompressCount := 1 }).cache
      = [] ∧
    decryptAndDecompress idCodec keysEnv [("w", [2])] "w"
        (clearCache { cache := [("w", [2])], decryptCount := 1, decompressCount := 1 }) =
      (.ok [2], { cache := [("w", [2])], decryptCount := 2, decompressCount := 2 }) :=
  decode_cache_idempotent idCodec keysEnv [("w", [2])] "w" dst0
    { cache := [("w", [2])], decryptCount := 1, decompressCount := 1 } [2] rfl rfl

/-- C9 (amended): with the public key absent, encode fails with
`EncryptionError` — but only after the compression transform has already
run (the counter increments; nothing is written); with the private key
absent, decode fails immediately with `DecryptionError` and no decrypt or
decompress work is attempted (the state is unchanged).  Neither failure
is a distinct configuration-error type: the codebase defines none. -/
theorem missing_key_fails_with_transform_error (c : Codec) (env : Env)
    (data : Bytes) (outPath : String) (wst : WriteState)
    (store : List (String × Bytes)) (p : String) (st : DecState) :
    (env.agePublicKey = none →
      compressAndEncrypt c env data outPath wst =
        (.error (.encryptionError "AGE_PUBLIC_KEY environment variable required"),
         { wst with compressCount := wst.compressCount + 1 })) ∧
    (env.agePrivateKey = none →
      decryptAge c env store p st =
        (.error (.decryptionError "AGE_PRIVATE_KEY environment variable required"), st) ∧
      (lookupStr p st.cache = none →
        decryptAndDecompress c env store p st =
          (.error (.decryptionError "AGE_PRIVATE_KEY environment variable required"),
           st))) := by
  refine ⟨fun hpub => ?_, fun hpriv => ⟨?_, fun hfresh => ?_⟩⟩
  · simp [compressAndEncrypt, compressZstd, encryptAge, hpub]
  · simp [decryptAge, hpriv]
  · simp [decryptAndDecompress, decryptAge, hfresh, hpriv]

/-- Witness for the amended C9 with both keys absent: encode fails with
`EncryptionError` after one compression, decode fails with
`DecryptionError` leaving the state untouched. -/
theorem missing_key_fails_with_transform_error_witness :
    compressAndEncrypt idCodec noKeysEnv [3] "o" wst0 =
      (.error (.encryptionError "AGE_PUBLIC_KEY environment variable required"),
       { compressCount := 1, encryptCount := 0, store := [] }) ∧
    decryptAge idCodec noKeysEnv [] "p" dst0 =
      (.error (.decryptionError "AGE_PRIVATE_KEY environment variable required"), dst0) := by
  have h := missing_key_fails_with_transform_error idCodec noKeysEnv [3] "o" wst0 [] "p" dst0
  exact ⟨h.1 rfl, (h.2 rfl).1⟩

/-- C9 counterexample: the missing-key failures carry the
`EncryptionError` and `DecryptionError` types of src/types/index.ts (the
claimed distinct configuration-error type does not exist in the
codebase), and on the encode side the compression transform has already
run when the failure is raised (`compressCount` is 1, not 0). -/
theorem missing_key_error_type_cex :
    compressAndEncrypt idCodec noKeysEnv [1, 2] "o" wst0 =
      (.error (.encryptionError "AGE_PUBLIC_KEY environment variable required"),
       { compressCount := 1, encryptCount := 0, store := [] }) ∧
    decryptAge idCodec noKeysEnv [] "p" dst0 =
      (.error (.decryptionError "AGE_PRIVATE_KEY environment variable required"), dst0) ∧
    (∀ s e, DGError.encryptionError s ≠ DGError.decryptionError e) :=
  ⟨rfl, rfl, fun _ _ h => DGError.noConfusion h⟩

/-- Characterization of a successful chunk loop: the produced records are
exactly one per index, in order, recording the ciphertext length and the
plaintext digest, and every recorded size passed the ceiling check. -/
theorem chunkLoop_ok (c : Codec) (env : Env) (T C : Nat) (data : Bytes) (bn : String) :
    ∀ (l : List Nat) (acc res : List ChunkInfo) (st st1 : WriteState),
      chunkLoop c env T C data bn l acc st = (.ok res, st1) →
      res = acc ++ l.map (fun i =>
        { index := i, path := chunkPathOf bn i,
          size := (c.encrypt (c.compress (chunkBuffer data T i))).length,
          hash := c.hash (chunkBuffer data T i) }) ∧
      ∀ i ∈ l, (c.encrypt (c.compress (chunkBuffer data T i))).length ≤ C := by
  intro l
  induction l with
  | nil =>
    intro acc res st st1 h
    simp only [chunkLoop] at h
    obtain ⟨h1, -⟩ := Prod.mk.injEq .. ▸ h
    obtain rfl := Except.ok.inj h1
    simp
  | cons i rest ih =>
    intro acc res st st1 h
    rcases hpk : env.agePublicKey with _ | k
    · simp [chunkLoop, compressAndEncrypt, compressZstd, encryptAge, hpk] at h
    · simp only [chunkLoop, compressAndEncrypt, compressZstd, encryptAge, hpk,
                 fsStat, lookupStr, eq_self_iff_true, if_true, ite_true,
                 Option.map_some'] at h
      by_cases hsz : C < (c.encrypt (c.compress (chunkBuffer data T i))).length
      · rw [if_pos hsz] at h
        simp at h
      · rw [if_neg hsz] at h
        obtain ⟨hres, hall⟩ := ih _ _ _ _ h
        constructor
        · rw [hres, List.map_cons, List.append_assoc, List.singleton_append]
        · intro j hj
          rcases List.mem_cons.mp hj with hj | hj
          · subst hj; omega
          · exact hall j hj

/-- Inversion of a successful chunked `chunkFile` run: the manifest
fields are fixed, `isChunked` is absent, the chunk list is one record per
index in order, and every recorded size is within the ceiling. -/
theorem chunkFile_chunked_inv (c : Codec) (env : Env) (T C : Nat) (data : Bytes)
    (bn : String) (st : WriteState) (m : ChunkManifest) (st1 : WriteState)
    (hbig : C < data.length)
    (h : chunkFile c env T C data bn st = (.ok m, st1)) :
    m.originalSize = data.length ∧
    m.numChunks = (data.length + T - 1) / T ∧
    m.isChunked = none ∧
    m.chunks = (List.range ((data.length + T - 1) / T)).map (fun i =>
      { index := i, path := chunkPathOf bn i,
        size := (c.encrypt (c.compress (chunkBuffer data T i))).length,
        hash := c.hash (chunkBuffer data T i) }) ∧
    ∀ ci ∈ m.chunks, ci.size ≤ C := by
  rw [chunkFile, if_neg (by omega)] at h
  rcases hloop : chunkLoop c env T C data bn
      (List.range ((data.length + T - 1) / T)) [] st with ⟨r, stx⟩
  rw [hloop] at h
  cases r with
  | error e => simp at h
  | ok chunks =>
    simp only [Prod.mk.injEq, Except.ok.injEq] at h
    obtain ⟨hm, -⟩ := h
    obtain ⟨hres, hall⟩ := (chunkLoop_ok c env T C data bn _ [] chunks st stx hloop)
    rw [List.nil_append] at hres
    subst hm
    refine ⟨rfl, rfl, rfl, hres, ?_⟩
    intro ci hci
    simp only [hres, List.mem_map, List.mem_range] at hci
    obtain ⟨i, hi, rfl⟩ := hci
    exact hall i (List.mem_range.mpr hi)

/-- A successful small-file run is fully determined when the public key
is present: one artifact, unchunked manifest with direct fields. -/
theorem processSmallFile_ok (c : Codec) (env : Env) (T : Nat) (data : Bytes)
    (bn : String) (st : WriteState) (k : String) (hk : env.agePublicKey = some k) :
    processSmallFile c env T data bn st =
      (.ok { originalFile := bn, originalSize := data.length, numChunks := 1,
             chunkSize := T, chunks := [], createdAt := "",
             isChunked := some false, path := some (bn ++ ".age.zst"),
             size := some (c.encrypt (c.compress data)).length,
             hash := some (c.hash data) },
       { compressCount := st.compressCount + 1, encryptCount := st.encryptCount + 1,
         store := (bn ++ ".age.zst", c.encrypt (c.compress data)) :: st.store }) := by
  simp [processSmallFile, compressAndEncrypt, compressZstd, encryptAge, hk, fsStat,
        lookupStr]

/-- Taking to the minimum with the length is a plain take. -/
theorem take_min_length (l : Bytes) (n : Nat) : l.take (min n l.length) = l.take n := by
  rcases Nat.le_total n l.length with h | h
  · rw [Nat.min_eq_left h]
  · rw [Nat.min_eq_right h, List.take_length, List.take_of_length_le h]

/-- The first chunk buffer is the first `T` bytes. -/
theorem chunkBuffer_zero (data : Bytes) (T : Nat) : chunkBuffer data T 0 = data.take T := by
  simp [chunkBuffer, take_min_length]

/-- Later chunk buffers are chunk buffers of the tail. -/
theorem chunkBuffer_succ (data : Bytes) (T i : Nat) :
    chunkBuffer data T (i + 1) = chunkBuffer (data.drop T) T i := by
  have h1 : (i + 1) * T = i * T + T := by rw [Nat.succ_mul]
  have h2 : i * T + T = T + i * T := Nat.add_comm ..
  simp only [chunkBuffer, List.drop_drop, List.length_drop, Nat.sub_sub, h1, h2]

/-- Unfolding of the ceiling division the source uses: a nonempty file
has one more chunk than its tail past the first `T` bytes. -/
theorem ceil_div_succ (N T : Nat) (hN : 0 < N) (hT : 0 < T) :
    (N + T - 1) / T = (N - T + T - 1) / T + 1 := by
  rcases Nat.le_total N T with h | h
  · have h0 : N - T = 0 := by omega
    rw [h0]
    rw [Nat.div_eq_of_lt (by omega : 0 + T - 1 < T)]
    exact Nat.div_eq_of_lt_le (by omega) (by omega)
  · have h2 : N + T - 1 = N - 1 + T := by omega
    have h3 : N - T + T - 1 = N - 1 := by omega
    rw [h2, h3, Nat.add_div_right _ hT]

/-- Concatenating the chunk buffers in order reproduces the data. -/
theorem join_chunkBuffers (T : Nat) (hT : 0 < T) :
    ∀ (n : Nat) (data : Bytes), data.length ≤ n →
      ((List.range ((data.length + T - 1) / T)).map (chunkBuffer data T)).flatten
        = data := by
  intro n
  induction n with
  | zero =>
    intro data hlen
    have h0 : data = [] := List.eq_nil_of_length_eq_zero (Nat.le_zero.mp hlen)
    subst h0
    have hdiv : (List.length ([] : Bytes) + T - 1) / T = 0 :=
      Nat.div_eq_of_lt (by simp; omega)
    rw [hdiv]
    rfl
  | succ n ih =>
    intro data hlen
    by_cases h0 : data.length = 0
    · have h0e : data = [] := List.eq_nil_of_length_eq_zero h0
      subst h0e
      have hdiv : (List.length ([] : Bytes) + T - 1) / T = 0 :=
        Nat.div_eq_of_lt (by simp; omega)
      rw [hdiv]
      rfl
    · have hpos : 0 < data.length := Nat.pos_of_ne_zero h0
      rw [ceil_div_succ _ _ hpos hT, List.range_succ_eq_map, List.map_cons,
          List.flatten_cons, chunkBuffer_zero, List.map_map]
      have hmap : (List.range ((data.length - T + T - 1) / T)).map
            (chunkBuffer data T ∘ Nat.succ)
          = (List.range ((data.length - T + T - 1) / T)).map (chunkBuffer (data.drop T) T) :=
        List.map_congr_left (fun i _ => by
          simp only [Function.comp_apply]
          exact chunkBuffer_succ data T i)
      rw [hmap]
      have hlen2 : (data.drop T).length ≤ n := by
        rw [List.length_drop]; omega
      have hdroplen : (data.drop T).length = data.length - T := List.length_drop ..
      have hih := ih (data.drop T) hlen2
      rw [hdroplen] at hih
      rw [hih]
      exact List.take_append_drop T data

/-- Upper ceiling bound: the planned chunks cover at least the file. -/
theorem ceil_div_ge (N T : Nat) (hT : 0 < T) : N ≤ ((N + T - 1) / T) * T := by
  have h1 := Nat.div_add_mod (N + T - 1) T
  have h2 := Nat.mod_lt (N + T - 1) hT
  have h3 : T * ((N + T - 1) / T) = ((N + T - 1) / T) * T := Nat.mul_comm ..
  omega

/-- Lower ceiling bound: one chunk fewer would not cover the file. -/
theorem ceil_div_lt (N T : Nat) (hN : 0 < N) (hT : 0 < T) :
    ((N + T - 1) / T - 1) * T < N := by
  have h1 := Nat.div_add_mod (N + T - 1) T
  have h3 : T * ((N + T - 1) / T) = ((N + T - 1) / T) * T := Nat.mul_comm ..
  have h4 : ((N + T - 1) / T - 1) * T = ((N + T - 1) / T) * T - T := by
    rw [Nat.sub_mul, Nat.one_mul]
  omega

/-- Length of a chunk buffer. -/
theorem chunkBuffer_length (data : Bytes) (T i : Nat) :
    (chunkBuffer data T i).length = min T (data.length - i * T) := by
  simp only [chunkBuffer, List.length_take, List.length_drop]
  omega

/-- Every chunk before the final one has the full target length. -/
theorem chunkBuffer_length_of_lt (data : Bytes) (T i : Nat) (hT : 0 < T)
    (hpos : 0 < data.length) (hi : i + 1 < (data.length + T - 1) / T) :
    (chunkBuffer data T i).length = T := by
  have h1 := ceil_div_lt data.length T hpos hT
  have h2 : (i + 1) * T ≤ ((data.length + T - 1) / T - 1) * T :=
    Nat.mul_le_mul_right _ (by omega)
  have h3 : (i + 1) * T = i * T + T := Nat.succ_mul ..
  rw [chunkBuffer_length]
  omega

/-- The size of the final planned chunk is `N mod T`, or `T` when `T`
divides `N`. -/
theorem last_chunk_length (N T : Nat) (hN : 0 < N) (hT : 0 < T) :
    N - ((N + T - 1) / T - 1) * T = if N % T = 0 then T else N % T := by
  have hmod := Nat.div_add_mod N T
  have hlt : N % T < T := Nat.mod_lt N hT
  by_cases hr : N % T = 0
  · rw [if_pos hr]
    have hNq : T * (N / T) = N := by omega
    have hq : 1 ≤ N / T := by
      rcases Nat.eq_zero_or_pos (N / T) with hq0 | hq0
      · rw [hq0, Nat.mul_zero] at hNq
        omega
      · exact hq0
    have hkey : N + T - 1 = T * (N / T) + (T - 1) := by omega
    have hK : (N + T - 1) / T = N / T := by
      rw [hkey, Nat.mul_add_div hT, Nat.div_eq_of_lt (by omega : T - 1 < T),
          Nat.add_zero]
    rw [hK]
    have hexp : (N / T - 1) * T = T * (N / T) - T := by
      rw [Nat.sub_mul, Nat.one_mul, Nat.mul_comm]
    have hTP : T * 1 ≤ T * (N / T) := Nat.mul_le_mul_left _ hq
    rw [Nat.mul_one] at hTP
    omega
  · rw [if_neg hr]
    have hms : T * (N / T + 1) = T * (N / T) + T := Nat.mul_succ ..
    have hkey : N + T - 1 = T * (N / T + 1) + (N % T - 1) := by omega
    have hK : (N + T - 1) / T = N / T + 1 := by
      rw [hkey, Nat.mul_add_div hT, Nat.div_eq_of_lt (by omega : N % T - 1 < T),
          Nat.add_zero]
    rw [hK]
    have hexp : (N / T + 1 - 1) * T = T * (N / T) := by
      rw [Nat.add_sub_cancel, Nat.mul_comm]
    omega

/-- The final chunk buffer has length `N mod T`, or `T` when `T` divides
`N`. -/
theorem chunkBuffer_length_last (data : Bytes) (T : Nat) (hT : 0 < T)
    (hpos : 0 < data.length) :
    (chunkBuffer data T ((data.length + T - 1) / T - 1)).length =
      if data.length % T = 0 then T else data.length % T := by
  rw [chunkBuffer_length]
  have h1 := ceil_div_lt data.length T hpos hT
  have h2 := ceil_div_ge data.length T hT
  have h3 := last_chunk_length data.length T hpos hT
  have h4 : ((data.length + T - 1) / T - 1) * T = ((data.length + T - 1) / T) * T - T := by
    rw [Nat.sub_mul, Nat.one_mul]
  rw [← h3]
  omega

/-- C1: the round-trip fails for every file above the ceiling, because
the chunked-manifest literal in `chunkFile` never sets `isChunked`, so
`decryptFile` takes the `!manifest.isChunked` branch and tries to decrypt
the nonexistent single-artifact path; shown here at the 5-byte file with
ceiling 4 and target 2, where reconstruction from the freshly produced
manifest and store fails with `DecryptionError` instead of returning the
original bytes. -/
theorem roundtrip_fails_on_chunked_manifest :
    chunkFile idCodec keysEnv 2 4 [1, 2, 3, 4, 5] "f" wst0 =
      (.ok demoManifest, demoWState) ∧
    demoManifest.isChunked = none ∧
    decryptFile idCodec keysEnv demoWState.store demoManifest dst0 =
      (.error (.decryptionError "Age decryption failed"), dst0) :=
  ⟨rfl, rfl, rfl⟩

/-- C4 (amended): the ceiling check exists only on the chunked path —
every chunk record of a successful chunked run has `size ≤ C` (an
oversize chunk aborts with `ChunkError` before being recorded); the
single-artifact path performs no such check. -/
theorem chunked_artifacts_within_ceiling (c : Codec) (env : Env) (T C : Nat)
    (data : Bytes) (bn : String) (st : WriteState) (m : ChunkManifest)
    (st1 : WriteState)
    (hbig : C < data.length)
    (hok : chunkFile c env T C data bn st = (.ok m, st1)) :
    ∀ ci ∈ m.chunks, ci.size ≤ C :=
  (chunkFile_chunked_inv c env T C data bn st m st1 hbig hok).2.2.2.2

/-- Witness for the amended C4 at the first chunk of the demo run. -/
theorem chunked_artifacts_within_ceiling_witness :
    ({ index := 0, path := "f.chunk.000.age.zst", size := 2, hash := 3 } : ChunkInfo).size
      ≤ 4 :=
  chunked_artifacts_within_ceiling idCodec keysEnv 2 4 [1, 2, 3, 4, 5] "f" wst0
    demoManifest demoWState (by decide) rfl
    { index := 0, path := "f.chunk.000.age.zst", size := 2, hash := 3 } (by decide)

/-- C4 counterexample: on the unchunked path the produced artifact is
recorded without any ceiling check — with a codec whose encryption adds a
byte, a 2-byte file under ceiling 2 yields an artifact of stored size 3,
yet the run succeeds instead of failing with a size violation. -/
theorem small_file_oversize_artifact_cex :
    chunkFile padCodec keysEnv 2 2 [1, 2] "f" wst0 =
      (.ok { originalFile := "f", originalSize := 2, numChunks := 1, chunkSize := 2,
             chunks := [], createdAt := "", isChunked := some false,
             path := some "f.age.zst", size := some 3, hash := some 3 },
       { compressCount := 1, encryptCount := 1, store := [("f.age.zst", [1, 2, 0])] }) ∧
    2 < 3 :=
  ⟨rfl, by decide⟩

/-- C6: chunk planning.  For `N ≤ C` (public key present) exactly one
artifact is produced, `isChunked` is false and the chunk list empty; for
`N > C` a successful run produces exactly `ceil(N / T)` chunk records,
record `i` carrying index `i` and the digest of the plaintext slice
`[i*T, min((i+1)*T, N))`; the slices concatenate back to the data
(contiguous, non-overlapping cover of `[0, N)`), every non-final slice
has length `T`, and the final one has length `N mod T` (or `T` when `T`
divides `N`). -/
theorem chunk_planning_correct (c : Codec) (env : Env) (T C : Nat) (data : Bytes)
    (bn : String) (st : WriteState) (hT : 0 < T) :
    (data.length ≤ C → ∀ k, env.agePublicKey = some k →
      ∃ m st1, chunkFile c env T C data bn st = (.ok m, st1) ∧
        m.isChunked = some false ∧ m.chunks = [] ∧ m.numChunks = 1) ∧
    (C < data.length → ∀ m st1, chunkFile c env T C data bn st = (.ok m, st1) →
      m.numChunks = (data.length + T - 1) / T ∧
      m.chunks.length = m.numChunks ∧
      m.chunks = (List.range m.numChunks).map (fun i =>
        { index := i, path := chunkPathOf bn i,
          size := (c.encrypt (c.compress (chunkBuffer data T i))).length,
          hash := c.hash (chunkBuffer data T i) }) ∧
      ((List.range m.numChunks).map (chunkBuffer data T)).flatten = data ∧
      (∀ i, i + 1 < m.numChunks → (chunkBuffer data T i).length = T) ∧
      (chunkBuffer data T (m.numChunks - 1)).length =
        if data.length % T = 0 then T else data.length % T) := by
  constructor
  · intro hle k hk
    rw [chunkFile, if_pos hle, processSmallFile_ok c env T data bn st k hk]
    exact ⟨_, _, rfl, rfl, rfl, rfl⟩
  · intro hgt m st1 hok
    have hpos : 0 < data.length := by omega
    obtain ⟨-, hnum, -, hchunks, -⟩ :=
      chunkFile_chunked_inv c env T C data bn st m st1 hgt hok
    refine ⟨hnum, ?_, ?_, ?_, ?_, ?_⟩
    · rw [hchunks, List.length_map, List.length_range, hnum]
    · rw [hchunks, hnum]
    · rw [hnum]
      exact join_chunkBuffers T hT data.length data (le_refl _)
    · intro i hi
      rw [hnum] at hi
      exact chunkBuffer_length_of_lt data T i hT hpos hi
    · rw [hnum]
      exact chunkBuffer_length_last data T hT hpos

/-- Witness for C6 at the demo run: 3 chunks, and the three planned
slices concatenate back to the 5-byte input. -/
theorem chunk_planning_correct_witness :
    demoManifest.numChunks = (5 + 2 - 1) / 2 ∧
    demoManifest.chunks.length = demoManifest.numChunks ∧
    ((List.range demoManifest.numChunks).map (chunkBuffer [1, 2, 3, 4, 5] 2)).flatten
      = [1, 2, 3, 4, 5] := by
  have h := (chunk_planning_correct idCodec keysEnv 2 4 [1, 2, 3, 4, 5] "f" wst0
    (by decide)).2 (by decide) demoManifest demoWState rfl
  exact ⟨h.1, h.2.1, h.2.2.2.1⟩

/-- C7 (amended): the plaintext slice lengths of a successful chunked run
sum to `original_size`; what the manifest records per chunk, however, is
the ciphertext size, whose sum bears no fixed relation to
`original_size`. -/
theorem plaintext_slice_sum_eq_original_size (c : Codec) (env : Env) (T C : Nat)
    (data : Bytes) (bn : String) (st : WriteState) (m : ChunkManifest)
    (st1 : WriteState)
    (hT : 0 < T) (hbig : C < data.length)
    (hok : chunkFile c env T C data bn st = (.ok m, st1)) :
    ((List.range m.numChunks).map (fun i => (chunkBuffer data T i).length)).sum
      = m.originalSize := by
  obtain ⟨hsz, hnum, -, -, -⟩ := chunkFile_chunked_inv c env T C data bn st m st1 hbig hok
  rw [hnum, hsz]
  have hj := join_chunkBuffers T hT data.length data (le_refl _)
  calc ((List.range ((data.length + T - 1) / T)).map
          (fun i => (chunkBuffer data T i).length)).sum
      = (((List.range ((data.length + T - 1) / T)).map (chunkBuffer data T)).map
          List.length).sum := by rw [List.map_map]; rfl
    _ = ((List.range ((data.length + T - 1) / T)).map (chunkBuffer data T)).flatten.length
        := (List.length_flatten _).symm
    _ = data.length := by rw [hj]

/-- Witness for the amended C7 at the demo run. -/
theorem plaintext_slice_sum_witness :
    ((List.range demoManifest.numChunks).map
        (fun i => (chunkBuffer [1, 2, 3, 4, 5] 2 i).length)).sum
      = demoManifest.originalSize :=
  plaintext_slice_sum_eq_original_size idCodec keysEnv 2 4 [1, 2, 3, 4, 5] "f" wst0
    demoManifest demoWState (by decide) (by decide) rfl

/-- C7 counterexample: what the write path records per chunk is the
ciphertext size, not the plaintext size — with one byte of encryption
overhead per chunk the recorded sizes sum to 8 while `originalSize` is 5. -/
theorem recorded_sizes_sum_cex :
    chunkFile padCodec keysEnv 2 4 [1, 2, 3, 4, 5] "f" wst0 =
      (.ok padManifest, padWState) ∧
    (padManifest.chunks.map ChunkInfo.size).sum = 8 ∧
    padManifest.originalSize = 5 ∧
    (8 : Nat) ≠ 5 :=
  ⟨rfl, rfl, rfl, by decide⟩
